import Mathlib

/-!
Verification of the gosaidsno aspect-oriented-programming library.

Shallow embedding of the Go sources:
* `utils/sort_utils.go`   — `BubbleSort` (modelled index-for-index, including
  its use of `items[lastIndex]` in the comparisons).
* `aspect/context.go`     — `Context`, `NewContext`, `SetResult`, `GetResult`,
  `HasPanic`.
* `aspect/advice.go`      — `AdviceType`, `Advice`, `AdviceChain`, `Add`,
  `executeAdviceList` and the five `Execute*` phase runners.
* `aspect/registry.go`    — `Registry`, `Register`, `AddAdvice`,
  `GetAdviceChain`.
* `aspect/wrap.go`        — `executeWithAdvice` (the engine; Go `defer` /
  `recover` / `panic` control flow is modelled by the explicit fault paths)
  and the adapters `Wrap1R`, `Wrap1RE`, `Wrap2R`.

Handlers and targets are modelled as pure state transformers over the
`Context` together with an external state `σ` (for observable side effects
such as logs and counters).  Abnormal termination (Go `panic`) is modelled as
an explicit outcome channel.  Go mutation of heap objects through pointers is
modelled by returning the updated value.  Go error messages are kept verbatim
except that single-quote characters are omitted.
-/

namespace Gosaidsno

/-- Boxed Go values (`any` at the boundary): the value shapes the repository
actually stores in `Context.Args` / `Context.Results` / `Context.PanicValue`. -/
inductive GoVal : Type where
  | vInt (n : Int)
  | vStr (s : String)
  | vBool (b : Bool)
  | vErr (msg : String)
  | vNil
  deriving DecidableEq, Repr, Inhabited

/-- Sort direction constant `utils.SortAscending` (Go `iota` value 0). -/
def sortAscending : Int := 0

/-- Sort direction constant `utils.SortDescending` (Go `iota` value 1). -/
def sortDescending : Int := 1

/-- One comparison-and-swap step of the inner loop of `utils.BubbleSort`
(sort_utils.go lines 22-31), modelled exactly as written: the comparison and
the swap both use `items[lastIndex]` (not `items[leftIndex]`). -/
def bubbleSwapStep {α : Type} (order : Int) (less : α → α → Bool) (dflt : α)
    (lastIndex : Nat) (items : List α) (leftIndex : Nat) : List α :=
  let rightIndex := leftIndex + 1
  let lastVal := items.getD lastIndex dflt
  let rightVal := items.getD rightIndex dflt
  let asc := (order == sortAscending) && !(less lastVal rightVal)
  let desc := (order == sortDescending) && less lastVal rightVal
  if asc || desc then (items.set lastIndex rightVal).set rightIndex lastVal
  else items

/-- `utils.BubbleSort` (sort_utils.go lines 15-33): the two Go index loops
become folds over `List.range`; the `i`-th outer pass runs the inner loop for
`leftIndex` from `0` to `lastIndex - i - 1`. -/
def bubbleSortGo {α : Type} (order : Int) (less : α → α → Bool) (dflt : α)
    (items : List α) : List α :=
  if items.length = 0 then items
  else
    let lastIndex := items.length - 1
    (List.range lastIndex).foldl
      (fun acc i =>
        let unsortedEnd := lastIndex - i
        (List.range unsortedEnd).foldl (bubbleSwapStep order less dflt lastIndex) acc)
      items

/-- `aspect.Context` (context.go lines 20-28).  `Results` is a Go `[]any`
whose entries may be `nil`, hence `List (Option GoVal)`; `Error` is the Go
`error` field (message or `nil`); `PanicValue` is the recovered abnormal
termination value. -/
structure Context : Type where
  functionName : String
  args : List GoVal
  results : List (Option GoVal)
  error : Option String
  panicValue : Option GoVal
  metadata : List (String × GoVal)
  skipped : Bool
  deriving DecidableEq, Repr

/-- `aspect.NewContext` (context.go lines 31-38). -/
def newContext (functionName : String) (args : List GoVal) : Context :=
  { functionName := functionName
    args := args
    results := []
    error := none
    panicValue := none
    metadata := []
    skipped := false }

/-- `Context.SetResult` (context.go lines 43-53): negative indices ignored,
the results sequence is extended with `nil` placeholders up to `index`. -/
def Context.setResult (aopCtx : Context) (index : Int) (value : GoVal) : Context :=
  if index < 0 then aopCtx
  else
    let i := index.toNat
    let padded := aopCtx.results ++ List.replicate (i + 1 - aopCtx.results.length) none
    { aopCtx with results := padded.set i (some value) }

/-- `Context.GetResult` (context.go lines 56-61). -/
def Context.getResult (aopCtx : Context) (index : Int) : Option GoVal :=
  if index < 0 ∨ aopCtx.results.length ≤ index then none
  else (aopCtx.results.getD index.toNat none)

/-- `Context.HasPanic` (context.go lines 64-66). -/
def Context.hasPanic (aopCtx : Context) : Bool :=
  aopCtx.panicValue.isSome

/-- `aspect.AdviceType` (advice.go lines 8-14, 18-19). -/
inductive AdviceType : Type where
  | before
  | after
  | around
  | afterReturning
  | afterThrowing
  deriving DecidableEq, Repr

/-- `aspect.AdviceFunc` (advice.go line 23): a handler receives the context
(and here, additionally, the external side-effect state `σ`) and produces the
mutated context and state plus an optional error. -/
def AdviceFunc (σ : Type) : Type := Context → σ → Context × σ × Option String

/-- `aspect.Advice` (advice.go lines 26-30). -/
structure Advice (σ : Type) : Type where
  type : AdviceType
  handler : AdviceFunc σ
  priority : Int

instance {σ : Type} : Inhabited (Advice σ) :=
  ⟨{ type := .before, handler := fun c s => (c, s, none), priority := 0 }⟩

/-- `aspect.AdviceChain` (advice.go lines 33-39): five phase buckets. -/
structure AdviceChain (σ : Type) : Type where
  before : List (Advice σ)
  after : List (Advice σ)
  around : List (Advice σ)
  afterReturning : List (Advice σ)
  afterThrowing : List (Advice σ)

/-- `aspect.NewAdviceChain` (advice.go lines 42-50). -/
def newAdviceChain (σ : Type) : AdviceChain σ :=
  { before := [], after := [], around := [], afterReturning := [], afterThrowing := [] }

/-- `AdviceChain.Add` (advice.go lines 55-68): append to the bucket matching
the advice type. -/
def AdviceChain.add {σ : Type} (ac : AdviceChain σ) (advice : Advice σ) : AdviceChain σ :=
  match advice.type with
  | .before => { ac with before := ac.before ++ [advice] }
  | .after => { ac with after := ac.after ++ [advice] }
  | .around => { ac with around := ac.around ++ [advice] }
  | .afterReturning => { ac with afterReturning := ac.afterReturning ++ [advice] }
  | .afterThrowing => { ac with afterThrowing := ac.afterThrowing ++ [advice] }

/-- `AdviceChain.HasAround` (advice.go lines 96-98). -/
def AdviceChain.hasAround {σ : Type} (ac : AdviceChain σ) : Bool :=
  decide (0 < ac.around.length)

/-- `AdviceChain.Count` (advice.go lines 101-103). -/
def AdviceChain.count {σ : Type} (ac : AdviceChain σ) : Nat :=
  ac.before.length + ac.after.length + ac.around.length +
    ac.afterReturning.length + ac.afterThrowing.length

/-- The comparator passed to `utils.BubbleSort` in `executeAdviceList`
(advice.go lines 113-115): `a.Priority < b.Priority`. -/
def adviceLess {σ : Type} (a b : Advice σ) : Bool :=
  decide (a.priority < b.priority)

/-- The execution loop of `executeAdviceList` (advice.go lines 117-123):
invoke each handler in turn, stopping at (and returning) the first error. -/
def runAdviceSeq {σ : Type} : List (Advice σ) → Context → σ → Context × σ × Option String
  | [], ctx, s => (ctx, s, none)
  | advice :: rest, ctx, s =>
    match advice.handler ctx s with
    | (ctx', s', some e) => (ctx', s', some e)
    | (ctx', s', none) => runAdviceSeq rest ctx' s'

/-- Result of running one phase of a chain: the chain's surviving bucket
content, the mutated context and state, and the first handler error. -/
structure PhaseOut (σ : Type) : Type where
  bucket : List (Advice σ)
  ctx : Context
  state : σ
  err : Option String

/-- `AdviceChain.executeAdviceList` (advice.go lines 108-124): copy the
bucket, sort the copy descending by priority with `utils.BubbleSort`, execute
the sorted copy.  The bucket held by the chain afterwards is the original
list — the in-place sort ran on the copy (lines 110-111). -/
def executeAdviceList {σ : Type} (adviceList : List (Advice σ)) (ctx : Context)
    (s : σ) : PhaseOut σ :=
  let sortedAdviceList := bubbleSortGo sortDescending adviceLess default adviceList
  let (ctx', s', e) := runAdviceSeq sortedAdviceList ctx s
  { bucket := adviceList, ctx := ctx', state := s', err := e }

/-- `AdviceChain.ExecuteBefore` (advice.go lines 71-73); the chain returned
is the chain as it stands after execution (the bucket is only read). -/
def AdviceChain.executeBefore {σ : Type} (ac : AdviceChain σ) (ctx : Context)
    (s : σ) : PhaseOut σ :=
  executeAdviceList ac.before ctx s

/-- `AdviceChain.ExecuteAfter` (advice.go lines 76-78). -/
def AdviceChain.executeAfter {σ : Type} (ac : AdviceChain σ) (ctx : Context)
    (s : σ) : PhaseOut σ :=
  executeAdviceList ac.after ctx s

/-- `AdviceChain.ExecuteAround` (advice.go lines 81-83). -/
def AdviceChain.executeAround {σ : Type} (ac : AdviceChain σ) (ctx : Context)
    (s : σ) : PhaseOut σ :=
  executeAdviceList ac.around ctx s

/-- `AdviceChain.ExecuteAfterReturning` (advice.go lines 86-88). -/
def AdviceChain.executeAfterReturning {σ : Type} (ac : AdviceChain σ)
    (ctx : Context) (s : σ) : PhaseOut σ :=
  executeAdviceList ac.afterReturning ctx s

/-- `AdviceChain.ExecuteAfterThrowing` (advice.go lines 91-93). -/
def AdviceChain.executeAfterThrowing {σ : Type} (ac : AdviceChain σ)
    (ctx : Context) (s : σ) : PhaseOut σ :=
  executeAdviceList ac.afterThrowing ctx s

/-- `aspect.Registry` (registry.go lines 17-20): the `entries` map becomes an
association list with unique keys; the mutex is irrelevant to sequential
behaviour. -/
structure Registry (σ : Type) : Type where
  entries : List (String × AdviceChain σ)

/-- `aspect.NewRegistry` (registry.go lines 23-27). -/
def newRegistry (σ : Type) : Registry σ :=
  { entries := [] }

/-- Map lookup `registry.entries[name]`. -/
def lookupChain {σ : Type} : List (String × AdviceChain σ) → String → Option (AdviceChain σ)
  | [], _ => none
  | e :: rest, name => if e.1 = name then some e.2 else lookupChain rest name

/-- `Registry.Register` (registry.go lines 33-47).  Go mutates the receiver
and returns only the error; here the post-state registry is returned
alongside.  Error messages keep the Go wording with quote characters
omitted. -/
def Registry.register {σ : Type} (registry : Registry σ) (name : String) :
    Option String × Registry σ :=
  if name = "" then (some "function name cannot be empty", registry)
  else if (lookupChain registry.entries name).isSome then
    (some ("function " ++ name ++ " is already registered"), registry)
  else (none, { entries := registry.entries ++ [(name, newAdviceChain σ)] })

/-- `Registry.AddAdvice` (registry.go lines 79-94): the Go in-place mutation
of the chain pointer becomes an in-place update of the entry. -/
def Registry.addAdvice {σ : Type} (registry : Registry σ) (functionName : String)
    (advice : Advice σ) : Option String × Registry σ :=
  if functionName = "" then (some "function name cannot be empty", registry)
  else
    match lookupChain registry.entries functionName with
    | none => (some ("function " ++ functionName ++ " is not registered"), registry)
    | some _ =>
      (none,
        { entries := registry.entries.map
            (fun e => if e.1 = functionName then (e.1, e.2.add advice) else e) })

/-- `Registry.GetAdviceChain` (registry.go lines 106-119). -/
def Registry.getAdviceChain {σ : Type} (registry : Registry σ)
    (functionName : String) : Except String (AdviceChain σ) :=
  if functionName = "" then .error "function name cannot be empty"
  else
    match lookupChain registry.entries functionName with
    | none => .error ("function " ++ functionName ++ " is not registered")
    | some chain => .ok chain

/-- Outcome of the target closure (the Go function literal passed to
`executeWithAdvice`): normal completion, or abnormal termination with a
panic value.  Both carry the context and state as mutated so far. -/
inductive TargetRes (σ : Type) : Type where
  | ok (ctx : Context) (s : σ)
  | panicked (ctx : Context) (v : GoVal) (s : σ)

/-- The shape of a target closure `func(*Context)` plus side effects. -/
def Target (σ : Type) : Type := Context → σ → TargetRes σ

/-- Result of one engine invocation: the final context and state, plus
`some v` when the call terminates abnormally with value `v` (a Go panic
propagating out of `executeWithAdvice`). -/
structure EngineRes (σ : Type) : Type where
  ctx : Context
  state : σ
  panicked : Option GoVal

/-- The fault path of `executeWithAdvice` (wrap.go lines 188-202, the two
deferred functions in LIFO order): the recover defer stores the panic value
in `ctx.PanicValue`, runs `AfterThrowing` (error discarded) and re-panics;
the After defer then runs `After` (error discarded) while the panic keeps
propagating with its original value. -/
def fatalPath {σ : Type} (chain : AdviceChain σ) (ctx : Context) (s : σ)
    (pv : GoVal) : EngineRes σ :=
  let ctxP := { ctx with panicValue := some pv }
  let o₁ := chain.executeAfterThrowing ctxP s
  let o₂ := chain.executeAfter o₁.ctx o₁.state
  { ctx := o₂.ctx, state := o₂.state, panicked := some pv }

/-- The `ctx.Error == nil && !ctx.HasPanic()` gate guarding
`ExecuteAfterReturning` (wrap.go lines 217-219 and 228-230; the returned
error is discarded). -/
def runAfterReturningIfClean {σ : Type} (chain : AdviceChain σ) (ctx : Context)
    (s : σ) : Context × σ :=
  if ctx.error.isNone && !ctx.hasPanic then
    let o := chain.executeAfterReturning ctx s
    (o.ctx, o.state)
  else (ctx, s)

/-- The normal-return tail of `executeWithAdvice`: `return ctx` followed by
the deferred `ExecuteAfter` (wrap.go lines 189-191; error discarded).  The
caller observes the context as mutated by the After phase because the
context is shared by pointer. -/
def finishNormal {σ : Type} (chain : AdviceChain σ) (ctx : Context) (s : σ) :
    EngineRes σ :=
  let o := chain.executeAfter ctx s
  { ctx := o.ctx, state := o.state, panicked := none }

/-- Target invocation and everything after it (wrap.go lines 224-232 for the
normal case; the recover defer for the abnormal case). -/
def runTarget {σ : Type} (chain : AdviceChain σ) (targetFn : Target σ)
    (ctx : Context) (s : σ) : EngineRes σ :=
  match targetFn ctx s with
  | .panicked ctx' v s' => fatalPath chain ctx' s' v
  | .ok ctx' s' =>
    let (c₂, s₂) := runAfterReturningIfClean chain ctx' s'
    finishNormal chain c₂ s₂

/-- The registered-name body of `executeWithAdvice` (wrap.go lines 185-232):
Before phase (error converts to a fault wrapping the phase description),
optional Around phase (same conversion; `ctx.Skipped` bypasses the target),
target invocation, conditional AfterReturning, guaranteed After. -/
def executeRegistered {σ : Type} (chain : AdviceChain σ) (functionName : String)
    (targetFn : Target σ) (args : List GoVal) (s : σ) : EngineRes σ :=
  let ctx := newContext functionName args
  let bout := chain.executeBefore ctx s
  match bout.err with
  | some e =>
    fatalPath chain bout.ctx bout.state (.vErr ("before advice failed: " ++ e))
  | none =>
    if chain.hasAround then
      let aout := chain.executeAround bout.ctx bout.state
      match aout.err with
      | some e =>
        fatalPath chain aout.ctx aout.state (.vErr ("around advice failed: " ++ e))
      | none =>
        if aout.ctx.skipped then
          let (c₃, s₃) := runAfterReturningIfClean chain aout.ctx aout.state
          finishNormal chain c₃ s₃
        else runTarget chain targetFn aout.ctx aout.state
    else runTarget chain targetFn bout.ctx bout.state

/-- `executeWithAdvice` (wrap.go lines 175-233).  The process-wide registry
consulted by `GetAdviceChain` is passed explicitly.  When the lookup fails
the target runs on a fresh context with no phase processing and no recover:
an abnormal termination propagates directly. -/
def executeWithAdvice {σ : Type} (reg : Registry σ) (functionName : String)
    (targetFn : Target σ) (args : List GoVal) (s : σ) : EngineRes σ :=
  match reg.getAdviceChain functionName with
  | .error _ =>
    let ctx := newContext functionName args
    match targetFn ctx s with
    | .ok ctx' s' => { ctx := ctx', state := s', panicked := none }
    | .panicked ctx' v s' => { ctx := ctx', state := s', panicked := some v }
  | .ok chain => executeRegistered chain functionName targetFn args s

/-- Re-aim a handler at a larger state type: the handler reads and writes
the `σ` component carved out by `get`/`put`.  Used to run registry chains
(whose handlers act on the user-visible state) inside an adapter whose engine
state also carries the adapter's local Go variables. -/
def Advice.liftState {σ τ : Type} (a : Advice σ) (get : τ → σ) (put : τ → σ → τ) :
    Advice τ :=
  { type := a.type, priority := a.priority,
    handler := fun c t =>
      let (c', s', e) := a.handler c (get t)
      (c', put t s', e) }

/-- Lift every advice of a chain with `Advice.liftState`. -/
def AdviceChain.liftState {σ τ : Type} (ac : AdviceChain σ) (get : τ → σ)
    (put : τ → σ → τ) : AdviceChain τ :=
  { before := ac.before.map (fun a => a.liftState get put)
    after := ac.after.map (fun a => a.liftState get put)
    around := ac.around.map (fun a => a.liftState get put)
    afterReturning := ac.afterReturning.map (fun a => a.liftState get put)
    afterThrowing := ac.afterThrowing.map (fun a => a.liftState get put) }

/-- Lift every chain of a registry with `AdviceChain.liftState`. -/
def Registry.liftState {σ τ : Type} (reg : Registry σ) (get : τ → σ)
    (put : τ → σ → τ) : Registry τ :=
  { entries := reg.entries.map (fun e => (e.1, e.2.liftState get put)) }

/-- Outcome of calling a wrapped single-value adapter: a normal return of
the typed value, or a propagating abnormal termination. -/
inductive Call1Res (σ : Type) : Type where
  | ret (v : GoVal) (s : σ)
  | panicked (pv : GoVal) (s : σ)
  deriving DecidableEq, Repr

/-- Outcome of calling a wrapped (value, error) adapter. -/
inductive Call1EResOut (σ : Type) : Type where
  | ret (v : GoVal) (e : Option String) (s : σ)
  | panicked (pv : GoVal) (s : σ)
  deriving DecidableEq, Repr

/-- `Wrap1R` (wrap.go lines 68-83).  The local Go variable `result`
(zero-valued `zeroR` until the target assigns it) is the first component of
the engine state.  After the engine returns, `result` is overridden by
`ctx.Results[0]` when that slot is non-empty (lines 77-79). -/
def Wrap1R {σ : Type} (reg : Registry σ) (name : String)
    (fn : GoVal → σ → GoVal × σ) (zeroR : GoVal) (a : GoVal) (s : σ) :
    Call1Res σ :=
  let targetFn : Target (GoVal × σ) := fun ctx p =>
    let (v, s') := fn a p.2
    .ok (ctx.setResult 0 v) (v, s')
  let er := executeWithAdvice
    (reg.liftState Prod.snd (fun p s' => (p.1, s'))) name targetFn [a] (zeroR, s)
  match er.panicked with
  | some pv => .panicked pv er.state.2
  | none =>
    match er.ctx.results.head? with
    | some (some v) => .ret v er.state.2
    | _ => .ret er.state.1 er.state.2

/-- `Wrap1RE` (wrap.go lines 86-97).  The locals `result` and `err` are the
first two components of the engine state; the target assigns both and also
stores them in the context.  Unlike `Wrap1R`, the returned pair is read only
from the locals — the context is not consulted after the engine returns. -/
def Wrap1RE {σ : Type} (reg : Registry σ) (name : String)
    (fn : GoVal → σ → GoVal × Option String × σ) (zeroR : GoVal) (a : GoVal)
    (s : σ) : Call1EResOut σ :=
  let targetFn : Target (GoVal × Option String × σ) := fun ctx p =>
    let (v, e, s') := fn a p.2.2
    .ok { ctx.setResult 0 v with error := e } (v, e, s')
  let er := executeWithAdvice
    (reg.liftState (fun p => p.2.2) (fun p s' => (p.1, p.2.1, s'))) name targetFn
    [a] (zeroR, none, s)
  match er.panicked with
  | some pv => .panicked pv er.state.2.2
  | none => .ret er.state.1 er.state.2.1 er.state.2.2

/-- `Wrap2R` (wrap.go lines 121-130).  Like `Wrap1R` but with two arguments
and no read-back of the context results: the returned value is the local
`result` variable. -/
def Wrap2R {σ : Type} (reg : Registry σ) (name : String)
    (fn : GoVal → GoVal → σ → GoVal × σ) (zeroR : GoVal) (a b : GoVal) (s : σ) :
    Call1Res σ :=
  let targetFn : Target (GoVal × σ) := fun ctx p =>
    let (v, s') := fn a b p.2
    .ok (ctx.setResult 0 v) (v, s')
  let er := executeWithAdvice
    (reg.liftState Prod.snd (fun p s' => (p.1, s'))) name targetFn [a, b] (zeroR, s)
  match er.panicked with
  | some pv => .panicked pv er.state.2
  | none => .ret er.state.1 er.state.2

/-- The condition under which `executeWithAdvice` reaches the target
invocation, together with the context/state the target receives: the Around
phase (when present) must finish without error and without setting
`ctx.Skipped` (wrap.go lines 209-222). -/
def targetEntry {σ : Type} (chain : AdviceChain σ) (ctx : Context) (s : σ) :
    Option (Context × σ) :=
  if chain.hasAround then
    let aout := chain.executeAround ctx s
    match aout.err with
    | some _ => none
    | none => if aout.ctx.skipped then none else some (aout.ctx, aout.state)
  else some (ctx, s)

/-- A Before advice of priority `p` whose handler appends the tag `t` to a
log; used by the concrete ordering scenarios. -/
def logBeforeAdvice (t : String) (p : Int) : Advice (List String) :=
  { type := .before, priority := p,
    handler := fun c log => (c, log ++ [t], none) }

/-- The registry of the spec scenario for the name `Sum`: a Before advice of
priority 10 appending `B10`, then a Before advice of priority 50 appending
`B50`, added in that order. -/
def sumReg : Registry (List String) :=
  let r₀ := ((newRegistry (List String)).register "Sum").2
  let r₁ := (r₀.addAdvice "Sum" (logBeforeAdvice "B10" 10)).2
  (r₁.addAdvice "Sum" (logBeforeAdvice "B50" 50)).2

/-- The target of the `Sum` scenario: `f(a, b int) int { return a + b }`. -/
def sumFn : GoVal → GoVal → List String → GoVal × List String :=
  fun a b log =>
    match a, b with
    | .vInt x, .vInt y => (.vInt (x + y), log)
    | _, _ => (.vNil, log)

/-- A chain with four Before advice added in the order priority 9, priority 5
tagged `p5a`, priority 5 tagged `p5b`, priority 3 — the equal-priority pair
`p5a`/`p5b` probes the insertion-order tie-break. -/
def tieChain : AdviceChain (List String) :=
  ((((newAdviceChain (List String)).add (logBeforeAdvice "p9" 9)).add
        (logBeforeAdvice "p5a" 5)).add
      (logBeforeAdvice "p5b" 5)).add
    (logBeforeAdvice "p3" 3)

/-- The Around advice of the spec scenario for the name `Flaky`: sets
`skipped = true` and `setResult(0, 42)`. -/
def flakyAround : Advice Int :=
  { type := .around, priority := 100,
    handler := fun c counter =>
      ({ c.setResult 0 (GoVal.vInt 42) with skipped := true }, counter, none) }

/-- The registry of the `Flaky` scenario (the external state is the counter
the target increments). -/
def flakyReg : Registry Int :=
  let r₀ := ((newRegistry Int).register "Flaky").2
  (r₀.addAdvice "Flaky" flakyAround).2

/-- The chain stored under `Flaky`: one Around advice (`flakyAround`). -/
def flakyChain : AdviceChain Int :=
  (newAdviceChain Int).add flakyAround

/-- The `Flaky` target in (value, error) shape: increments the counter and
returns 7 with a nil error. -/
def flakyFnRE : GoVal → Int → GoVal × Option String × Int :=
  fun _ counter => (.vInt 7, none, counter + 1)

/-- The `Flaky` target in plain value shape: increments the counter and
returns 7. -/
def flakyFnR : GoVal → Int → GoVal × Int :=
  fun _ counter => (.vInt 7, counter + 1)

/-- An AfterThrowing advice recording the observed `ctx.PanicValue` string in
the log; used by the abnormal-termination scenario. -/
def riskyRecorder : Advice (List String) :=
  { type := .afterThrowing, priority := 100,
    handler := fun c log =>
      (c, log ++ [match c.panicValue with | some (.vStr s) => s | _ => "?"], none) }

/-- The chain of the `Risky` scenario: one AfterThrowing recorder. -/
def riskyChain : AdviceChain (List String) :=
  (newAdviceChain (List String)).add riskyRecorder

/-- The registry of the `Risky` scenario. -/
def riskyReg : Registry (List String) :=
  let r₀ := ((newRegistry (List String)).register "Risky").2
  (r₀.addAdvice "Risky" riskyRecorder).2

/-- The `Risky` target: aborts abnormally with the value `boom`. -/
def riskyTarget : Target (List String) :=
  fun c log => .panicked c (GoVal.vStr "boom") log

/-- A Before advice that fails with the error `cfg-bad` after appending
`bad-before` to the log; used by the fatal-configuration scenario. -/
def failingBefore : Advice (List String) :=
  { type := .before, priority := 5,
    handler := fun c log => (c, log ++ ["bad-before"], some "cfg-bad") }

/-- The chain of the failing-Before scenario. -/
def cfgChain : AdviceChain (List String) :=
  (newAdviceChain (List String)).add failingBefore

/-- The registry of the failing-Before scenario. -/
def cfgReg : Registry (List String) :=
  let r₀ := ((newRegistry (List String)).register "Cfg").2
  (r₀.addAdvice "Cfg" failingBefore).2

/-- A target that appends `target-ran` to the log and completes normally;
used to probe whether the target was invoked. -/
def loggingTarget : Target (List String) :=
  fun c log => .ok c (log ++ ["target-ran"])

/-- An AfterReturning advice appending `after-returning` to the log. -/
def afterReturningLogger : Advice (List String) :=
  { type := .afterReturning, priority := 100,
    handler := fun c log => (c, log ++ ["after-returning"], none) }

/-- The chain of the AfterReturning-gating scenario. -/
def gateChain : AdviceChain (List String) :=
  (newAdviceChain (List String)).add afterReturningLogger

/-- The registry of the AfterReturning-gating scenario. -/
def gateReg : Registry (List String) :=
  let r₀ := ((newRegistry (List String)).register "Gate").2
  (r₀.addAdvice "Gate" afterReturningLogger).2

/-- A target completing normally with no error. -/
def cleanTarget : Target (List String) :=
  fun c log => .ok c (log ++ ["target-ran"])

/-- A target completing normally but with `ctx.Error` set. -/
def erroringTarget : Target (List String) :=
  fun c log => .ok { c with error := some "normal-failure" } (log ++ ["target-ran"])

/-- An engine-level target that increments a counter; used by the skip
scenario at state `Int`. -/
def countingTarget : Target Int :=
  fun c counter => .ok c (counter + 1)

/-- Unfolding lemma: a successful chain lookup routes the engine to the
registered-name protocol body. -/
theorem engine_lookup_ok {σ : Type} (reg : Registry σ) (name : String)
    (chain : AdviceChain σ) (t : Target σ) (args : List GoVal) (s : σ)
    (h : reg.getAdviceChain name = .ok chain) :
    executeWithAdvice reg name t args s = executeRegistered chain name t args s := by
  unfold executeWithAdvice
  rw [h]

/-- Unfolding lemma: a failed chain lookup routes the engine to the direct,
unguarded target invocation. -/
theorem engine_lookup_error {σ : Type} (reg : Registry σ) (name : String)
    (t : Target σ) (args : List GoVal) (s : σ) (msg : String)
    (h : reg.getAdviceChain name = .error msg) :
    executeWithAdvice reg name t args s =
      (match t (newContext name args) s with
       | .ok ctx' s' => { ctx := ctx', state := s', panicked := none }
       | .panicked ctx' v s' => { ctx := ctx', state := s', panicked := some v }) := by
  unfold executeWithAdvice
  rw [h]

/-- Path lemma: a Before-phase handler error takes the fault path with the
wrapped phase description. -/
theorem registered_before_err {σ : Type} (chain : AdviceChain σ) (name : String)
    (t : Target σ) (args : List GoVal) (s : σ) (e : String)
    (hE : (chain.executeBefore (newContext name args) s).err = some e) :
    executeRegistered chain name t args s =
      fatalPath chain (chain.executeBefore (newContext name args) s).ctx
        (chain.executeBefore (newContext name args) s).state
        (.vErr ("before advice failed: " ++ e)) := by
  simp only [executeRegistered]
  rw [hE]

/-- Path lemma: with no Around advice, a clean Before phase proceeds to the
target with the Before-mutated context and state. -/
theorem registered_no_around {σ : Type} (chain : AdviceChain σ) (name : String)
    (t : Target σ) (args : List GoVal) (s : σ)
    (hb : (chain.executeBefore (newContext name args) s).err = none)
    (hA : chain.hasAround = false) :
    executeRegistered chain name t args s =
      runTarget chain t (chain.executeBefore (newContext name args) s).ctx
        (chain.executeBefore (newContext name args) s).state := by
  simp only [executeRegistered]
  rw [hb, hA]
  simp

/-- Path lemma: an Around-phase handler error takes the fault path with the
wrapped phase description. -/
theorem registered_around_err {σ : Type} (chain : AdviceChain σ) (name : String)
    (t : Target σ) (args : List GoVal) (s : σ) (e : String)
    (hb : (chain.executeBefore (newContext name args) s).err = none)
    (hA : chain.hasAround = true)
    (hAE : (chain.executeAround (chain.executeBefore (newContext name args) s).ctx
        (chain.executeBefore (newContext name args) s).state).err = some e) :
    executeRegistered chain name t args s =
      fatalPath chain
        (chain.executeAround (chain.executeBefore (newContext name args) s).ctx
          (chain.executeBefore (newContext name args) s).state).ctx
        (chain.executeAround (chain.executeBefore (newContext name args) s).ctx
          (chain.executeBefore (newContext name args) s).state).state
        (.vErr ("around advice failed: " ++ e)) := by
  simp only [executeRegistered]
  rw [hb, hA]
  simp only [if_true]
  rw [hAE]

/-- Path lemma: Around advice setting `ctx.Skipped` bypasses the target and
goes to the conditional AfterReturning and the guaranteed After. -/
theorem registered_skip {σ : Type} (chain : AdviceChain σ) (name : String)
    (t : Target σ) (args : List GoVal) (s : σ)
    (hb : (chain.executeBefore (newContext name args) s).err = none)
    (hA : chain.hasAround = true)
    (hAE : (chain.executeAround (chain.executeBefore (newContext name args) s).ctx
        (chain.executeBefore (newContext name args) s).state).err = none)
    (hSk : (chain.executeAround (chain.executeBefore (newContext name args) s).ctx
        (chain.executeBefore (newContext name args) s).state).ctx.skipped = true) :
    executeRegistered chain name t args s =
      finishNormal chain
        (runAfterReturningIfClean chain
          (chain.executeAround (chain.executeBefore (newContext name args) s).ctx
            (chain.executeBefore (newContext name args) s).state).ctx
          (chain.executeAround (chain.executeBefore (newContext name args) s).ctx
            (chain.executeBefore (newContext name args) s).state).state).1
        (runAfterReturningIfClean chain
          (chain.executeAround (chain.executeBefore (newContext name args) s).ctx
            (chain.executeBefore (newContext name args) s).state).ctx
          (chain.executeAround (chain.executeBefore (newContext name args) s).ctx
            (chain.executeBefore (newContext name args) s).state).state).2 := by
  simp only [executeRegistered]
  rw [hb, hA]
  simp only [if_true]
  rw [hAE]
  simp [hSk]

/-- Path lemma: Around advice finishing cleanly without skipping proceeds to
the target with the Around-mutated context and state. -/
theorem registered_no_skip {σ : Type} (chain : AdviceChain σ) (name : String)
    (t : Target σ) (args : List GoVal) (s : σ)
    (hb : (chain.executeBefore (newContext name args) s).err = none)
    (hA : chain.hasAround = true)
    (hAE : (chain.executeAround (chain.executeBefore (newContext name args) s).ctx
        (chain.executeBefore (newContext name args) s).state).err = none)
    (hSk : (chain.executeAround (chain.executeBefore (newContext name args) s).ctx
        (chain.executeBefore (newContext name args) s).state).ctx.skipped = false) :
    executeRegistered chain name t args s =
      runTarget chain t
        (chain.executeAround (chain.executeBefore (newContext name args) s).ctx
          (chain.executeBefore (newContext name args) s).state).ctx
        (chain.executeAround (chain.executeBefore (newContext name args) s).ctx
          (chain.executeBefore (newContext name args) s).state).state := by
  simp only [executeRegistered]
  rw [hb, hA]
  simp only [if_true]
  rw [hAE]
  simp [hSk]

/-- Path lemma: a normally-completing target proceeds to the conditional
AfterReturning and the guaranteed After. -/
theorem runTarget_ok {σ : Type} (chain : AdviceChain σ) (t : Target σ)
    (c : Context) (s : σ) (c' : Context) (s' : σ) (h : t c s = .ok c' s') :
    runTarget chain t c s =
      finishNormal chain (runAfterReturningIfClean chain c' s').1
        (runAfterReturningIfClean chain c' s').2 := by
  unfold runTarget
  rw [h]

/-- Path lemma: an abnormally-terminating target takes the fault path with
its own panic value. -/
theorem runTarget_panic {σ : Type} (chain : AdviceChain σ) (t : Target σ)
    (c : Context) (s : σ) (c' : Context) (v : GoVal) (s' : σ)
    (h : t c s = .panicked c' v s') :
    runTarget chain t c s = fatalPath chain c' s' v := by
  unfold runTarget
  rw [h]

/-- The AfterReturning gate passes when the context carries no error and no
panic value. -/
theorem runARIfClean_clean {σ : Type} (chain : AdviceChain σ) (c : Context)
    (s : σ) (he : c.error = none) (hp : c.panicValue = none) :
    runAfterReturningIfClean chain c s =
      ((chain.executeAfterReturning c s).ctx, (chain.executeAfterReturning c s).state) := by
  unfold runAfterReturningIfClean
  simp [Context.hasPanic, he, hp]

/-- The AfterReturning gate blocks when the context carries an error. -/
theorem runARIfClean_err {σ : Type} (chain : AdviceChain σ) (c : Context)
    (s : σ) (msg : String) (he : c.error = some msg) :
    runAfterReturningIfClean chain c s = (c, s) := by
  unfold runAfterReturningIfClean
  simp [he]

/-- Every fault path ends in exactly one application of the After phase. -/
theorem fatalPath_factor {σ : Type} (chain : AdviceChain σ) (c : Context)
    (s : σ) (pv : GoVal) :
    ∃ a b p, fatalPath chain c s pv =
      { ctx := (chain.executeAfter a b).ctx,
        state := (chain.executeAfter a b).state, panicked := p } :=
  ⟨(chain.executeAfterThrowing { c with panicValue := some pv } s).ctx,
    (chain.executeAfterThrowing { c with panicValue := some pv } s).state,
    some pv, rfl⟩

/-- Every normal-return path ends in exactly one application of the After
phase. -/
theorem finishNormal_factor {σ : Type} (chain : AdviceChain σ) (c : Context)
    (s : σ) :
    ∃ a b p, finishNormal chain c s =
      { ctx := (chain.executeAfter a b).ctx,
        state := (chain.executeAfter a b).state, panicked := p } :=
  ⟨c, s, none, rfl⟩

/-- Both target outcomes end in exactly one application of the After phase. -/
theorem runTarget_factor {σ : Type} (chain : AdviceChain σ) (t : Target σ)
    (c : Context) (s : σ) :
    ∃ a b p, runTarget chain t c s =
      { ctx := (chain.executeAfter a b).ctx,
        state := (chain.executeAfter a b).state, panicked := p } := by
  cases h : t c s with
  | ok c' s' =>
    rw [runTarget_ok chain t c s c' s' h]
    exact finishNormal_factor chain _ _
  | panicked c' v s' =>
    rw [runTarget_panic chain t c s c' v s' h]
    exact fatalPath_factor chain c' s' v

/-- Every path through the registered-name protocol ends in exactly one
application of the After phase. -/
theorem executeRegistered_factor {σ : Type} (chain : AdviceChain σ)
    (name : String) (t : Target σ) (args : List GoVal) (s : σ) :
    ∃ a b p, executeRegistered chain name t args s =
      { ctx := (chain.executeAfter a b).ctx,
        state := (chain.executeAfter a b).state, panicked := p } := by
  cases hE : (chain.executeBefore (newContext name args) s).err with
  | some e =>
    rw [registered_before_err chain name t args s e hE]
    exact fatalPath_factor chain _ _ _
  | none =>
    cases hA : chain.hasAround with
    | false =>
      rw [registered_no_around chain name t args s hE hA]
      exact runTarget_factor chain t _ _
    | true =>
      cases hAE : (chain.executeAround (chain.executeBefore (newContext name args) s).ctx
          (chain.executeBefore (newContext name args) s).state).err with
      | some e =>
        rw [registered_around_err chain name t args s e hE hA hAE]
        exact fatalPath_factor chain _ _ _
      | none =>
        cases hSk : (chain.executeAround (chain.executeBefore (newContext name args) s).ctx
            (chain.executeBefore (newContext name args) s).state).ctx.skipped with
        | true =>
          rw [registered_skip chain name t args s hE hA hAE hSk]
          exact finishNormal_factor chain _ _
        | false =>
          rw [registered_no_skip chain name t args s hE hA hAE hSk]
          exact runTarget_factor chain t _ _

/-- Path lemma: whenever `targetEntry` yields a context and state, the
registered-name protocol invokes the target exactly there. -/
theorem registered_target_entry {σ : Type} (chain : AdviceChain σ)
    (name : String) (t : Target σ) (args : List GoVal) (s : σ) (cT : Context)
    (sT : σ)
    (hb : (chain.executeBefore (newContext name args) s).err = none)
    (hentry : targetEntry chain (chain.executeBefore (newContext name args) s).ctx
        (chain.executeBefore (newContext name args) s).state = some (cT, sT)) :
    executeRegistered chain name t args s = runTarget chain t cT sT := by
  unfold targetEntry at hentry
  cases hA : chain.hasAround with
  | false =>
    rw [hA] at hentry
    simp only [Bool.false_eq_true, if_false, Option.some.injEq, Prod.mk.injEq] at hentry
    rw [registered_no_around chain name t args s hb hA, hentry.1, hentry.2]
  | true =>
    rw [hA] at hentry
    simp only [if_true] at hentry
    cases hAE : (chain.executeAround (chain.executeBefore (newContext name args) s).ctx
        (chain.executeBefore (newContext name args) s).state).err with
    | some e =>
      rw [hAE] at hentry
      simp at hentry
    | none =>
      rw [hAE] at hentry
      cases hSk : (chain.executeAround (chain.executeBefore (newContext name args) s).ctx
          (chain.executeBefore (newContext name args) s).state).ctx.skipped with
      | true =>
        simp [hSk] at hentry
      | false =>
        simp only [hSk, Bool.false_eq_true, if_false, Option.some.injEq,
          Prod.mk.injEq] at hentry
        rw [registered_no_skip chain name t args s hb hA hAE hSk, hentry.1, hentry.2]

/-- Claim C1 (refuted by the code — code bug): the spec requires
priority-descending execution within a phase, and in the concrete `Sum`
scenario a log of `["B50", "B10"]`.  The code's `utils.BubbleSort` compares
`items[lastIndex]` instead of `items[leftIndex]` and therefore does not sort:
the two Before advice run in insertion order, so the wrapped `f(2, 3)` does
return 5 but leaves the log `["B10", "B50"]`, the reverse of the required
order.  (The repository's own test `TestAdviceChain_ExecutionOrder` asserts
the priority-descending order and fails on this code.) -/
theorem c1_sum_priority_order_bug :
    Wrap2R sumReg "Sum" sumFn (GoVal.vInt 0) (GoVal.vInt 2) (GoVal.vInt 3) [] =
      Call1Res.ret (GoVal.vInt 5) ["B10", "B50"] ∧
    (["B10", "B50"] : List String) ≠ ["B50", "B10"] :=
  ⟨by rfl, by decide⟩

/-- Claim C2 (refuted by the code — code bug): equal-priority advice must run
in insertion order.  With four Before advice added in the order priority 9,
priority 5 (`p5a`), priority 5 (`p5b`), priority 3, the broken BubbleSort
swaps the priority-3 element into the middle and moves `p5a` to the end, so
the later-added `p5b` executes before the earlier-added `p5a`. -/
theorem c2_equal_priority_stability_bug :
    (tieChain.executeBefore (newContext "Tie" []) ([] : List String)).state =
      ["p9", "p3", "p5b", "p5a"] ∧
    (["p9", "p3", "p5b", "p5a"] : List String).indexOf "p5b" <
      (["p9", "p3", "p5b", "p5a"] : List String).indexOf "p5a" :=
  ⟨by rfl, by decide⟩

/-- Claim C4 counterexample: in the `Flaky` scenario wrapped with `Wrap1RE`,
the Around advice skips the target and places 42 in result slot 0, yet the
adapter returns the zero value 0 (with a nil error and an untouched counter)
because `Wrap1RE` never reads `ctx.Results[0]` back — so not every adapter in
the family prefers the Around-placed value. -/
theorem c4_wrap1RE_skip_counterexample :
    Wrap1RE flakyReg "Flaky" flakyFnRE (GoVal.vInt 0) GoVal.vNil 0 =
      Call1EResOut.ret (GoVal.vInt 0) none 0 ∧
    GoVal.vInt 0 ≠ GoVal.vInt 42 :=
  ⟨by rfl, by decide⟩

/-- Claim C4 as amended: the adapters that read the context back
(`Wrap1R`, and likewise `Wrap0R`/`Wrap0RE`) do prefer the Around-placed slot-0
value on skip: the `Flaky` scenario wrapped with `Wrap1R` returns 42 and the
counter stays 0 (the target never ran). -/
theorem c4_amended_wrap1R_skip_result :
    Wrap1R flakyReg "Flaky" flakyFnR (GoVal.vInt 0) GoVal.vNil 0 =
      Call1Res.ret (GoVal.vInt 42) 0 := by
  rfl

/-- Claim C10 (confirmed): executing a phase leaves the chain's stored
buckets unchanged — `executeAdviceList` sorts a copy of the bucket
(advice.go lines 110-111) and only reads the original — so repeated
executions of the same chain run from the same stored sequence. -/
theorem c10_execution_preserves_chain {σ : Type} (chain : AdviceChain σ)
    (ctx : Context) (s : σ) :
    ((chain.executeBefore ctx s).bucket = chain.before ∧
      (chain.executeAfter ctx s).bucket = chain.after ∧
      (chain.executeAround ctx s).bucket = chain.around ∧
      (chain.executeAfterReturning ctx s).bucket = chain.afterReturning ∧
      (chain.executeAfterThrowing ctx s).bucket = chain.afterThrowing) ∧
    executeAdviceList (chain.executeBefore ctx s).bucket ctx s =
      executeAdviceList chain.before ctx s :=
  ⟨⟨rfl, rfl, rfl, rfl, rfl⟩, rfl⟩

/-- Claim C3 (confirmed): for a registered name, every termination path of
the engine — normal return, normal error, skip, Before/Around configuration
fault, and target abnormal termination alike, for every target — factors
through exactly one final application of the After phase (only the lookup
hypothesis is needed for this part); and when the run reaches the target and
the target aborts abnormally with value `v`, the AfterThrowing phase runs on
the context with `PanicValue = v`, then the After phase runs, and the engine
call aborts again with the same value `v`. -/
theorem c3_after_final_and_fault_propagation {σ : Type} (reg : Registry σ)
    (name : String) (chain : AdviceChain σ) (targetFn : Target σ)
    (args : List GoVal) (s₀ : σ) (cT : Context) (sT : σ) (c' : Context)
    (v : GoVal) (s' : σ)
    (hchain : reg.getAdviceChain name = .ok chain) :
    (∀ t : Target σ, ∃ a b p,
        executeWithAdvice reg name t args s₀ =
          { ctx := (chain.executeAfter a b).ctx,
            state := (chain.executeAfter a b).state, panicked := p }) ∧
    ((chain.executeBefore (newContext name args) s₀).err = none →
     targetEntry chain (chain.executeBefore (newContext name args) s₀).ctx
        (chain.executeBefore (newContext name args) s₀).state = some (cT, sT) →
     targetFn cT sT = .panicked c' v s' →
     executeWithAdvice reg name targetFn args s₀ =
       (let o₁ := chain.executeAfterThrowing { c' with panicValue := some v } s'
        let o₂ := chain.executeAfter o₁.ctx o₁.state
        { ctx := o₂.ctx, state := o₂.state, panicked := some v })) := by
  constructor
  · intro t
    rw [engine_lookup_ok reg name chain t args s₀ hchain]
    exact executeRegistered_factor chain name t args s₀
  · intro hb hentry hpanic
    rw [engine_lookup_ok reg name chain targetFn args s₀ hchain,
      registered_target_entry chain name targetFn args s₀ cT sT hb hentry,
      runTarget_panic chain targetFn cT sT c' v s' hpanic]
    rfl

/-- Witness for C3: the `Risky` scenario — the target aborts with `boom`,
the AfterThrowing recorder observes it, After then runs, and the engine
aborts again with `boom`. -/
theorem c3_witness :
    executeWithAdvice riskyReg "Risky" riskyTarget [] ([] : List String) =
      (let o₁ := riskyChain.executeAfterThrowing
          { newContext "Risky" [] with panicValue := some (GoVal.vStr "boom") } []
       let o₂ := riskyChain.executeAfter o₁.ctx o₁.state
       { ctx := o₂.ctx, state := o₂.state, panicked := some (GoVal.vStr "boom") }) :=
  (c3_after_final_and_fault_propagation riskyReg "Risky" riskyChain riskyTarget
    [] [] (newContext "Risky" []) [] (newContext "Risky" [])
    (GoVal.vStr "boom") [] (by rfl)).2 (by rfl) (by rfl) (by rfl)

/-- Claim C5 (confirmed): if the Before phase returns an error `e`, the
target is never invoked (the engine result does not depend on the target at
all — the right-hand side below mentions no target), and the engine takes
the fault path with the wrapped value `before advice failed: e`:
AfterThrowing runs on the context carrying that value, After runs, and the
call aborts with the wrapped value. -/
theorem c5_before_error_fatal {σ : Type} (reg : Registry σ) (name : String)
    (chain : AdviceChain σ) (args : List GoVal) (s₀ : σ) (e : String)
    (hchain : reg.getAdviceChain name = .ok chain)
    (hberr : (chain.executeBefore (newContext name args) s₀).err = some e) :
    ∀ targetFn : Target σ,
      executeWithAdvice reg name targetFn args s₀ =
        (let bout := chain.executeBefore (newContext name args) s₀
         let pv := GoVal.vErr ("before advice failed: " ++ e)
         let o₁ := chain.executeAfterThrowing
           { bout.ctx with panicValue := some pv } bout.state
         let o₂ := chain.executeAfter o₁.ctx o₁.state
         { ctx := o₂.ctx, state := o₂.state, panicked := some pv }) := by
  intro targetFn
  rw [engine_lookup_ok reg name chain targetFn args s₀ hchain,
    registered_before_err chain name targetFn args s₀ e hberr]
  rfl

/-- Witness for C5: the `Cfg` scenario — its only Before advice fails with
`cfg-bad`; the engine aborts with the wrapped fault value and the target was
never consulted. -/
theorem c5_witness :
    executeWithAdvice cfgReg "Cfg" loggingTarget [] ([] : List String) =
      (let bout := cfgChain.executeBefore (newContext "Cfg" []) []
       let pv := GoVal.vErr ("before advice failed: " ++ "cfg-bad")
       let o₁ := cfgChain.executeAfterThrowing
         { bout.ctx with panicValue := some pv } bout.state
       let o₂ := cfgChain.executeAfter o₁.ctx o₁.state
       { ctx := o₂.ctx, state := o₂.state, panicked := some pv }) :=
  c5_before_error_fatal cfgReg "Cfg" cfgChain [] [] "cfg-bad"
    (by rfl) (by rfl) loggingTarget

/-- Claim C6 (confirmed): when the run reaches the target and the target
completes normally (no abnormal termination: `PanicValue` stays empty), the
AfterReturning phase runs exactly once if `ctx.Error` is nil and not at all
if `ctx.Error` is non-nil; either way only After follows and the call
completes as a normal return (`panicked = none`) — a normal error never
aborts the call. -/
theorem c6_afterReturning_gated_on_error {σ : Type} (reg : Registry σ)
    (name : String) (chain : AdviceChain σ) (targetFn : Target σ)
    (args : List GoVal) (s₀ : σ) (cT : Context) (sT : σ) (c' : Context)
    (s' : σ)
    (hchain : reg.getAdviceChain name = .ok chain)
    (hb : (chain.executeBefore (newContext name args) s₀).err = none)
    (hentry : targetEntry chain (chain.executeBefore (newContext name args) s₀).ctx
        (chain.executeBefore (newContext name args) s₀).state = some (cT, sT))
    (hok : targetFn cT sT = .ok c' s')
    (hnp : c'.panicValue = none) :
    (c'.error = none →
      executeWithAdvice reg name targetFn args s₀ =
        (let o₁ := chain.executeAfterReturning c' s'
         let o₂ := chain.executeAfter o₁.ctx o₁.state
         { ctx := o₂.ctx, state := o₂.state, panicked := none })) ∧
    (∀ msg, c'.error = some msg →
      executeWithAdvice reg name targetFn args s₀ =
        (let o₂ := chain.executeAfter c' s'
         { ctx := o₂.ctx, state := o₂.state, panicked := none })) := by
  rw [engine_lookup_ok reg name chain targetFn args s₀ hchain,
    registered_target_entry chain name targetFn args s₀ cT sT hb hentry,
    runTarget_ok chain targetFn cT sT c' s' hok]
  constructor
  · intro he
    rw [runARIfClean_clean chain c' s' he hnp]
    rfl
  · intro msg he
    rw [runARIfClean_err chain c' s' msg he]
    rfl

/-- Witness for C6: the `Gate` scenario with a cleanly-returning target —
AfterReturning runs, then After, and the call returns normally. -/
theorem c6_witness :
    executeWithAdvice gateReg "Gate" cleanTarget [] ([] : List String) =
      (let o₁ := gateChain.executeAfterReturning (newContext "Gate" [])
         ["target-ran"]
       let o₂ := gateChain.executeAfter o₁.ctx o₁.state
       { ctx := o₂.ctx, state := o₂.state, panicked := none }) :=
  (c6_afterReturning_gated_on_error gateReg "Gate" gateChain cleanTarget [] []
    (newContext "Gate" []) [] (newContext "Gate" []) ["target-ran"]
    (by rfl) (by rfl) (by rfl) (by rfl) (by rfl)).1 (by rfl)

/-- Claim C7 (confirmed): when the Around phase finishes without error and
with `ctx.Skipped` set, the target is never invoked (the engine result is the
same for every target); and when additionally the context carries no error
and no panic value, AfterReturning runs, then After, and the call completes
as a normal return — skipping by itself produces no error and no fault. -/
theorem c7_skip_semantics {σ : Type} (reg : Registry σ) (name : String)
    (chain : AdviceChain σ) (args : List GoVal) (s₀ : σ)
    (hchain : reg.getAdviceChain name = .ok chain)
    (hb : (chain.executeBefore (newContext name args) s₀).err = none)
    (hA : chain.hasAround = true)
    (hAE : (chain.executeAround (chain.executeBefore (newContext name args) s₀).ctx
        (chain.executeBefore (newContext name args) s₀).state).err = none)
    (hSk : (chain.executeAround (chain.executeBefore (newContext name args) s₀).ctx
        (chain.executeBefore (newContext name args) s₀).state).ctx.skipped = true) :
    (∀ t t' : Target σ,
      executeWithAdvice reg name t args s₀ = executeWithAdvice reg name t' args s₀) ∧
    ((chain.executeAround (chain.executeBefore (newContext name args) s₀).ctx
        (chain.executeBefore (newContext name args) s₀).state).ctx.error = none →
     (chain.executeAround (chain.executeBefore (newContext name args) s₀).ctx
        (chain.executeBefore (newContext name args) s₀).state).ctx.panicValue = none →
     ∀ t : Target σ,
       executeWithAdvice reg name t args s₀ =
         (let aout := chain.executeAround
           (chain.executeBefore (newContext name args) s₀).ctx
           (chain.executeBefore (newContext name args) s₀).state
          let o₁ := chain.executeAfterReturning aout.ctx aout.state
          let o₂ := chain.executeAfter o₁.ctx o₁.state
          { ctx := o₂.ctx, state := o₂.state, panicked := none })) := by
  constructor
  · intro t t'
    rw [engine_lookup_ok reg name chain t args s₀ hchain,
      engine_lookup_ok reg name chain t' args s₀ hchain,
      registered_skip chain name t args s₀ hb hA hAE hSk,
      registered_skip chain name t' args s₀ hb hA hAE hSk]
  · intro he hp t
    rw [engine_lookup_ok reg name chain t args s₀ hchain,
      registered_skip chain name t args s₀ hb hA hAE hSk,
      runARIfClean_clean chain _ _ he hp]
    rfl

/-- Witness for C7: the `Flaky` scenario at engine level — the Around advice
skips, the counting target never runs, AfterReturning and After run, and the
call returns normally. -/
theorem c7_witness :
    executeWithAdvice flakyReg "Flaky" countingTarget [GoVal.vNil] (0 : Int) =
      (let aout := flakyChain.executeAround
         (flakyChain.executeBefore (newContext "Flaky" [GoVal.vNil]) 0).ctx
         (flakyChain.executeBefore (newContext "Flaky" [GoVal.vNil]) 0).state
       let o₁ := flakyChain.executeAfterReturning aout.ctx aout.state
       let o₂ := flakyChain.executeAfter o₁.ctx o₁.state
       { ctx := o₂.ctx, state := o₂.state, panicked := none }) :=
  (c7_skip_semantics flakyReg "Flaky" flakyChain [GoVal.vNil] 0
    (by rfl) (by rfl) (by rfl) (by rfl) (by rfl)).2 (by rfl) (by rfl)
    countingTarget

/-- Claim C8 (confirmed): for a name whose chain lookup fails, the engine
invokes the target exactly once on a fresh context with no phases and no
fault containment: a normal completion is returned as-is, an abnormal
termination propagates directly (no AfterThrowing, no After, no
`PanicValue` capture), and the result does not depend on the advice stored
in the registry (any registry for which the lookup fails gives the same
result). -/
theorem c8_unregistered_fast_path {σ : Type} (reg : Registry σ)
    (name : String) (args : List GoVal) (s₀ : σ) (msg : String)
    (h : reg.getAdviceChain name = .error msg) :
    (∀ (t : Target σ) (c' : Context) (s' : σ),
        t (newContext name args) s₀ = .ok c' s' →
        executeWithAdvice reg name t args s₀ =
          { ctx := c', state := s', panicked := none }) ∧
    (∀ (t : Target σ) (c' : Context) (v : GoVal) (s' : σ),
        t (newContext name args) s₀ = .panicked c' v s' →
        executeWithAdvice reg name t args s₀ =
          { ctx := c', state := s', panicked := some v }) ∧
    (∀ (reg' : Registry σ) (msg' : String),
        reg'.getAdviceChain name = .error msg' →
        ∀ t : Target σ,
          executeWithAdvice reg' name t args s₀ =
            executeWithAdvice reg name t args s₀) := by
  refine ⟨?_, ?_, ?_⟩
  · intro t c' s' ht
    rw [engine_lookup_error reg name t args s₀ msg h, ht]
  · intro t c' v s' ht
    rw [engine_lookup_error reg name t args s₀ msg h, ht]
  · intro reg' msg' h' t
    rw [engine_lookup_error reg name t args s₀ msg h,
      engine_lookup_error reg' name t args s₀ msg' h']

/-- Witness for C8: the empty registry and the name `Nope` — the counting
target runs exactly once (the counter goes from 0 to 1) on a fresh context
and the call returns normally. -/
theorem c8_witness :
    executeWithAdvice (newRegistry Int) "Nope" countingTarget [] (0 : Int) =
      { ctx := newContext "Nope" [], state := 1, panicked := none } :=
  (c8_unregistered_fast_path (newRegistry Int) "Nope" [] 0
    ("function " ++ "Nope" ++ " is not registered") (by rfl)).1
    countingTarget (newContext "Nope" []) 1 (by rfl)

/-- Appending a fresh entry makes it visible under its own name when the
name was absent before. -/
theorem lookupChain_append_self {σ : Type} (l : List (String × AdviceChain σ))
    (name : String) (c : AdviceChain σ) (h : lookupChain l name = none) :
    lookupChain (l ++ [(name, c)]) name = some c := by
  induction l with
  | nil => simp [lookupChain]
  | cons e rest ih =>
    by_cases he : e.1 = name
    · simp [lookupChain, he] at h
    · simp only [List.cons_append]
      simp only [lookupChain, he, if_false] at h ⊢
      exact ih h

/-- Appending a fresh entry does not change the lookup of any other name. -/
theorem lookupChain_append_other {σ : Type} (l : List (String × AdviceChain σ))
    (name : String) (c : AdviceChain σ) (other : String) (hne : other ≠ name) :
    lookupChain (l ++ [(name, c)]) other = lookupChain l other := by
  induction l with
  | nil => simp [lookupChain, Ne.symm hne]
  | cons e rest ih =>
    by_cases he : e.1 = other
    · simp [lookupChain, he]
    · simp only [List.cons_append]
      simp only [lookupChain, he, if_false]
      exact ih

/-- Claim C9 (confirmed): `Register` fails exactly when the name is empty or
already present; on failure the registry is unchanged; on success the name
maps to a fresh chain containing zero advice and every other name entry is
unchanged. -/
theorem c9_register_contract {σ : Type} (registry : Registry σ) (name : String) :
    (((registry.register name).1.isSome = true) ↔
      (name = "" ∨ (lookupChain registry.entries name).isSome = true)) ∧
    ((registry.register name).1.isSome = true →
      (registry.register name).2 = registry) ∧
    ((registry.register name).1 = none →
      lookupChain ((registry.register name).2).entries name =
          some (newAdviceChain σ) ∧
      (newAdviceChain σ).count = 0 ∧
      ∀ other, other ≠ name →
        lookupChain ((registry.register name).2).entries other =
          lookupChain registry.entries other) := by
  by_cases h1 : name = ""
  · have hreg : registry.register name =
        (some "function name cannot be empty", registry) := by
      simp [Registry.register, h1]
    refine ⟨?_, ?_, ?_⟩ <;> rw [hreg]
    · simp [h1]
    · intro _
      rfl
    · intro h
      exact absurd h (by simp)
  · by_cases h2 : (lookupChain registry.entries name).isSome = true
    · have hreg : registry.register name =
          (some ("function " ++ name ++ " is already registered"), registry) := by
        simp [Registry.register, h1, h2]
      refine ⟨?_, ?_, ?_⟩ <;> rw [hreg]
      · simp [h2]
      · intro _
        rfl
      · intro h
        exact absurd h (by simp)
    · have h2' : lookupChain registry.entries name = none :=
        Option.not_isSome_iff_eq_none.mp (by simpa using h2)
      have hreg : registry.register name =
          (none, { entries := registry.entries ++ [(name, newAdviceChain σ)] }) := by
        simp [Registry.register, h1, h2']
      refine ⟨?_, ?_, ?_⟩ <;> rw [hreg]
      · simp [h1, h2]
      · intro h
        exact absurd h (by simp)
      · intro _
        refine ⟨?_, rfl, ?_⟩
        · exact lookupChain_append_self registry.entries name (newAdviceChain σ) h2'
        · intro other hne
          exact lookupChain_append_other registry.entries name (newAdviceChain σ)
            other hne

/-- Witness for C9: on the empty registry, registering `A` succeeds and maps
`A` to the empty chain, while registering the empty name fails. -/
theorem c9_witness :
    lookupChain (((newRegistry Int).register "A").2).entries "A" =
      some (newAdviceChain Int) ∧
    ((newRegistry Int).register "").1.isSome = true :=
  ⟨((c9_register_contract (newRegistry Int) "A").2.2 (by rfl)).1,
    (c9_register_contract (newRegistry Int) "").1.mpr (Or.inl rfl)⟩

end Gosaidsno
